import Mathlib

/-!
Verification development for the 64x0 assembler (`src/Drivers/64asm.cc`).

The assembler's state lives in file-scoped globals (`kBytes`, `kRecords`,
`kOriginLabel`, `kOrigin`, ...).  We embed it as an explicit `AsmState`
record threaded through the functions `asm_read_attributes` (directive
processor), `CheckLine` (line validator), `WriteNumber` (numeric literal
reader) and `WriteLine` (instruction encoder), each ported here under its
source name.  Lines are `List Char`; the output byte buffer is a
`List Nat` of byte values.

Declarations from headers that are not part of the repository snapshot
(`ParserKit.hpp`, `AsmKit/Arch/64x0.hpp`, `StdKit/PEF.hpp`) are modelled
from the spec and marked as such in their doc comments.  `AE.hxx` is in
the snapshot, so the AE record layout and `kAEInvalidOpcode = 0` come from
the source.
-/

/-- Characters of a string literal, for writing `List Char` constants. -/
def chars (s : String) : List Char := s.data

/-- `leadsWith pat l` is true when `pat` matches the first `pat.length`
characters of `l` (the matching step of `std::string::find`). -/
def leadsWith : List Char → List Char → Bool
  | [], _ => true
  | _ :: _, [] => false
  | p :: ps, c :: cs => p == c && leadsWith ps cs

/-- `subIdx? pat l` is the first index at which `pat` occurs inside `l`,
i.e. `std::string::find` returning an index instead of `npos`. -/
def subIdx? (pat : List Char) : List Char → Option Nat
  | [] => if leadsWith pat [] then some 0 else none
  | c :: rest =>
    if leadsWith pat (c :: rest) then some 0
    else (subIdx? pat rest).map (· + 1)

/-- Occurrence test: `find(...) != npos`.
Modelled from the spec: `ParserKit::find_word` comes from `ParserKit.hpp`,
which is not in the snapshot; the spec describes the match as the mnemonic
"occurring in" the line and comments being stripped wherever `#`/`;`
appear, so we model it as plain substring occurrence, which also matches
the `line.find(...) != npos` calls that appear verbatim in `64asm.cc`. -/
def occursL (pat l : List Char) : Bool := (subIdx? pat l).isSome

/-- First occurrence index with the default 0 (only used on lines where the
occurrence is known to exist). -/
def idxOfD (pat l : List Char) : Nat := (subIdx? pat l).getD 0

/-- `str.erase(i, n)` on a `List Char`. -/
def eraseAt (l : List Char) (i n : Nat) : List Char := l.take i ++ l.drop (i + n)

/-- `l[i]` for `std::string`: in-range characters, `'\0'` at/past the end
(the C++ `operator[]` returns `'\0'` at exactly `size()`; the scanner's
small overreads past that are modelled the same way). -/
def charAt (l : List Char) (i : Nat) : Char := l.getD i (Char.ofNat 0)

/-- C `isspace` for the character classes the assembler can meet. -/
def isSpaceC (c : Char) : Bool :=
  c == ' ' || c == '\t' || c == '\n' || c == '\x0b' || c == '\x0c' || c == '\r'

/-- Value of a character as a digit, 255 when it is no digit at all
(mirrors `strtoq`'s digit classification). -/
def digitVal (c : Char) : Nat :=
  if c.isDigit then c.toNat - 48
  else if 'a' ≤ c ∧ c ≤ 'z' then c.toNat - 87
  else if 'A' ≤ c ∧ c ≤ 'Z' then c.toNat - 55
  else 255

/-- `strtoq(s, nullptr, b)` on the digit run at the head of `s`: consume
characters while they are valid base-`b` digits, accumulate the value.
The leading-whitespace/sign handling of `strtoq` is never exercised here:
every call site in `64asm.cc` hands it a string starting with a digit (or
with a non-digit, where both the real function and this model yield 0).
Overflow (`errno = ERANGE`) is not modelled, so the
"zero result with errno set" fatal path of `WriteNumber` never fires. -/
def parseBase (b : Nat) : List Char → Nat → Nat
  | [], acc => acc
  | c :: cs, acc => if digitVal c < b then parseBase b cs (acc * b + digitVal c) else acc

/-- Modelled from the spec: `CompilerKit::NumberCast` (from the missing
`64x0.hpp`) reinterprets the parsed integer as its fixed-width raw bytes;
per §4.3 the width is the 64x0 word size (64 bits, `strtoq` returns a
quad) in little-endian byte order, pushed byte by byte. -/
def numberCastBytes (v : Nat) : List Nat :=
  [v % 256, v / 256 % 256, v / 256 ^ 2 % 256, v / 256 ^ 3 % 256,
   v / 256 ^ 4 % 256, v / 256 ^ 5 % 256, v / 256 ^ 6 % 256, v / 256 ^ 7 % 256]

/-- Sentinel kind of an undefined-symbol record, from `AE.hxx`:
`#define kAEInvalidOpcode 0x00`. -/
def kAEInvalidOpcode : Nat := 0

/-- Relocation flag forced onto every written record, from `AE.hxx`. -/
def kKindRelocationAtRuntime : Nat := 0x34f

/-- Modelled from the spec: the PEF section-kind tags live in the missing
`StdKit/PEF.hpp`.  Their concrete values are not given; the spec only
needs them to be distinct from each other and from the invalid-opcode
sentinel (an Undefined record is "distinguished from a section record"
by that sentinel), so we pick 1/2/3. -/
def kPefCode : Nat := 1

/-- Modelled from the spec: see `kPefCode`. -/
def kPefData : Nat := 2

/-- Modelled from the spec: see `kPefCode`. -/
def kPefZero : Nat := 3

/-- Modelled from the spec: `kPefBaseOrigin` (missing `PEF.hpp`) is "a
fixed base address" used as a placeholder ordinal; its concrete value is
irrelevant to every claim, we fix one. -/
def kPefBaseOrigin : Nat := 0x1000000

/-- Modelled from the spec: addressing-mode tags of the opcode table
(missing `64x0.hpp`); three distinct values per §2/§4.4. -/
def kAsmNoArgs : Nat := 0

/-- Modelled from the spec: see `kAsmNoArgs`. -/
def kAsmRegToReg : Nat := 1

/-- Modelled from the spec: see `kAsmNoArgs`. -/
def kAsmImmediate : Nat := 2

/-- Modelled from the spec: registers range over `r0`–`r20` (§6 grammar,
§8 boundary), so the limit checked by `reg_index > kAsmRegisterLimit`
is 20. -/
def kAsmRegisterLimit : Nat := 20

/-- One entry of the static opcode table (`64x0.hpp`, modelled from the
spec: mnemonic, 1-byte opcode, funct3, addressing-mode tag funct7). -/
structure OpcodeDesc where
  fName : List Char
  fOpcode : Nat
  fFunct3 : Nat
  fFunct7 : Nat
deriving DecidableEq

/-- Modelled from the spec: the static opcode table `kOpcodes64x0` lives in
the missing `64x0.hpp`.  The spec names the mnemonics `add`, `dec`, `pop`,
`jlr`, `jrl`, `int`, `ldw`, `stw`, `lda`, `sta`; `add`/`dec` are
register-to-register, the memory/immediate-operand mnemonics and `pop`
take the immediate tag (the source checks `pop`'s register count inside
the RegToReg/Immediate case, so its tag is one of those two).  The
numeric opcode bytes are unspecified by the spec; no claim depends on
them, we pick distinct placeholder values in declaration order. -/
def kOpcodes64x0 : List OpcodeDesc :=
  [⟨chars "add", 16, 0, kAsmRegToReg⟩,
   ⟨chars "dec", 17, 0, kAsmRegToReg⟩,
   ⟨chars "pop", 18, 0, kAsmImmediate⟩,
   ⟨chars "jlr", 19, 0, kAsmImmediate⟩,
   ⟨chars "jrl", 20, 0, kAsmImmediate⟩,
   ⟨chars "int", 21, 0, kAsmImmediate⟩,
   ⟨chars "ldw", 22, 0, kAsmImmediate⟩,
   ⟨chars "stw", 23, 0, kAsmImmediate⟩,
   ⟨chars "lda", 24, 0, kAsmImmediate⟩,
   ⟨chars "sta", 25, 0, kAsmImmediate⟩]

/-- `detail::algorithm::is_not_alnum_space`, negated per character: the
allow-listed character set. -/
def allowedChar (c : Char) : Bool :=
  c.isAlpha || c.isDigit || c == ' ' || c == '\t' || c == ',' ||
  c == '(' || c == ')' || c == '"' || c == '\'' || c == '[' || c == ']' ||
  c == '+' || c == '_' || c == ':' || c == '@' || c == '.'

/-- `detail::algorithm::is_valid`. -/
def isValidChars (l : List Char) : Bool := l.all allowedChar

/-- Errors thrown with `std::runtime_error` in `64asm.cc`, by their
`what()` strings. -/
inductive AsmErr where
  | invalidImportBin
  | invalidExportBin
  | invalidHex
  | invalidBin
  | invalidOctal
  | invalidRegisterIndex
  | notARegister
  | invalidCombOpReg
  | invalidCombOpPop
  | invalidCombOpOps
  | invalidStaUsage
  | importStaOp
  | labelEmpty
deriving DecidableEq

/-- `PlatformAssembler64x0::WriteNumber`, lines 640-762.  Returns `none`
for the `false` ("not a number") outcome and `some bytes` for the bytes
pushed onto `kBytes` on success.  The radix dispatch on the character at
`pos + 1` is ported exactly as written, including the `'o'` case calling
`strtoq(..., 7)` — base seven — while its diagnostics speak of octal /
"base 8".  The fatal "invalid hex/binary/octal number" paths require
`strtoq` to return 0 with `errno` set, which the claims' inputs never
produce (see `parseBase`), so they are absent here. -/
def writeNumber (pos : Nat) (jl : List Char) : Option (List Nat) :=
  if !(charAt jl pos).isDigit then none
  else
    match charAt jl (pos + 1) with
    | 'x' => some (numberCastBytes (parseBase 16 (jl.drop (pos + 2)) 0))
    | 'b' => some (numberCastBytes (parseBase 2 (jl.drop (pos + 2)) 0))
    | 'o' => some (numberCastBytes (parseBase 7 (jl.drop (pos + 2)) 0))
    | _ => some (numberCastBytes (parseBase 10 (jl.drop pos) 0))

/-- These do take an argument (`operands_inst` in `CheckLine`). -/
def kOperandsInst : List (List Char) := [chars "stw", chars "ldw", chars "lda", chars "sta"]

/-- These do not require a space after the mnemonic (`filter_inst`). -/
def kFilterInst : List (List Char) := [chars "jlr", chars "jrl", chars "int"]

/-- Mnemonic part of `CheckLine` (the loop over `kOpcodes64x0`, lines
596-637): first table entry whose name occurs in the line wins; NoArgs
opcodes validate immediately; otherwise the bare-mnemonic and
missing-space diagnostics accumulate in the error string. -/
def mnemonicCheck (line : List Char) : List Char × List Char :=
  match kOpcodes64x0.find? (fun op => occursL op.fName line) with
  | none => (line, chars "unrecognized instruction and operands: " ++ line)
  | some op =>
    if op.fFunct7 = kAsmNoArgs then (line, [])
    else
      let e1 :=
        if line = chars "stw" ∨ line = chars "ldw" ∨ line = chars "lda" ∨ line = chars "sta"
        then chars "malformed instruction, here -> " ++ line else []
      let e2 :=
        if !(kFilterInst.contains op.fName) then
          if occursL op.fName line &&
             !(isSpaceC (charAt line (idxOfD op.fName line + op.fName.length)))
          then chars "missing space between mnemonic and operands, here -> " ++ line
          else []
        else []
      (line, e1 ++ e2)

/-- `PlatformAssembler64x0::CheckLine`, lines 506-638.  The line is passed
by reference and comment-stripped in place; we return the (possibly
rewritten) line together with the error string (empty = line accepted). -/
def checkLine (line : List Char) : List Char × List Char :=
  if line.isEmpty || occursL (chars "import") line || occursL (chars "export") line ||
     occursL (chars "#") line || occursL (chars ";") line then
    match subIdx? (chars "#") line with
    | some i => (line.take i, [])
    | none =>
      match subIdx? (chars ";") line with
      | some i => (line.take i, [])
      | none =>
        (line, if isValidChars line then []
               else chars "Line contains non alphanumeric characters, here -> " ++ line)
  else if !(isValidChars line) then
    (line, chars "Line contains non alphanumeric characters, here -> " ++ line)
  else
    match subIdx? (chars ",") line with
    | some i =>
      if i + 1 = line.length then
        (line, chars "instruction lacks right register, here -> " ++ line.drop i)
      else if (line.drop (i + 1)).all (fun c => c == ' ' || c == '\t') then
        (line, chars "instruction not complete, here -> " ++ line)
      else mnemonicCheck line
    | none => mnemonicCheck line

/-- One AE record as built in memory (`CompilerKit::AERecordHeader` from
`AE.hxx`): 64-byte null-padded name, kind, size, flags, offset.  The
8-byte sentinel pad field carries no information the claims touch. -/
structure AERec where
  fName : List Char
  fKind : Nat
  fSize : Nat
  fFlags : Nat
  fOffset : Nat
deriving DecidableEq

/-- 64-byte null-padded record name (`memset(fName, 0, kAESymbolLen)`
followed by `memcpy` of the string). -/
def padName (s : List Char) : List Char :=
  s.take 64 ++ List.replicate (64 - s.length) (Char.ofNat 0)

/-- The file-scoped assembler globals of `64asm.cc` gathered in a record:
`kOrigin`, `kOriginLabel`, `kBytes`, `kRecords`, `kUndefinedSymbols`,
the persistent `kCurrentRecord.fKind`, and `kCounter`. -/
structure AsmState where
  origin : Nat
  originLabel : List (List Char × Nat)
  bytes : List Nat
  records : List AERec
  undefinedSymbols : List (List Char)
  currentKind : Nat
  counter : Nat
deriving DecidableEq

/-- Initial values of the globals. -/
def initState : AsmState :=
  { origin := kPefBaseOrigin, originLabel := [], bytes := [], records := [],
    undefinedSymbols := [], currentKind := kPefCode, counter := 1 }

/-- `kRecords[kRecords.size() - 1].fSize = kBytes.size()` — finalize the
open (last) record's size, a no-op on an empty record list. -/
def setLastSize : List AERec → Nat → List AERec
  | [], _ => []
  | [r], n => [{ r with fSize := n }]
  | r :: r' :: rs, n => r :: setLastSize (r' :: rs) n

/-- Erase the first occurrence of `pat` from `l` (`erase(find(pat), strlen(pat))`). -/
def eraseSub (pat l : List Char) : List Char :=
  match subIdx? pat l with
  | some i => eraseAt l i pat.length
  | none => l

/-- `asm_read_attributes`, lines 340-481: the directive processor.
Returns `(handled, state)` or the thrown error.  The recoverable
`print_error` calls that precede the flat-binary throws touch only the
process-wide error counter, which is modelled separately
(`printErrorStep`). -/
def asmReadAttributes (bin : Bool) (line : List Char) (st : AsmState) :
    Except AsmErr (Bool × AsmState) :=
  if occursL (chars "import ") line then
    if bin then .error .invalidImportBin
    else
      let name := line.drop (idxOfD (chars "import ") line + (chars "import ").length)
      let mangled := name.map (fun c => if c = ' ' ∨ c = ',' then '$' else c)
      let result := Nat.toDigits 10 name.length ++ chars ":ld:" ++ mangled
      let kind0 :=
        if occursL (chars ".text") mangled then kPefCode
        else if occursL (chars ".data") mangled then kPefData
        else if occursL (chars ".page_zero") mangled then kPefZero
        else st.currentKind
      let kind := if mangled = chars "__start" then kPefCode else kind0
      .ok (true,
        { st with
          records := setLastSize st.records st.bytes.length ++
            [{ fName := padName result, fKind := kind, fSize := 0, fFlags := 0, fOffset := 0 }],
          currentKind := kind,
          counter := st.counter + 1 })
  else if occursL (chars "export ") line then
    if bin then .error .invalidExportBin
    else
      let name0 := line.drop (idxOfD (chars "export ") line + (chars "export ").length)
      let name := name0.map (fun c => if c = ' ' then '$' else c)
      let kindCopy :=
        if occursL (chars ".text") name then (kPefCode, eraseSub (chars ".text") name0)
        else if occursL (chars ".data") name then (kPefData, eraseSub (chars ".data") name0)
        else if occursL (chars ".page_zero") name then (kPefZero, eraseSub (chars ".page_zero") name0)
        else (st.currentKind, name0)
      let kind := if name = chars "__start" then kPefCode else kindCopy.1
      let nameCopy := kindCopy.2.filter (fun c => c != ' ')
      .ok (true,
        { st with
          originLabel := st.originLabel ++ [(nameCopy, st.origin)],
          origin := st.origin + 1,
          records := setLastSize st.records st.bytes.length ++
            [{ fName := padName name, fKind := kind, fSize := 0, fFlags := 0, fOffset := 0 }],
          currentKind := kind,
          counter := st.counter + 1 })
  else .ok (false, st)

/-- Register-token test at position `i` of the encoder's scan:
`line[i] == 'r' && isdigit(line[i + 1])`. -/
def regMatchAt (line : List Char) (i : Nat) : Bool :=
  charAt line i == 'r' && (charAt line (i + 1)).isDigit

/-- The `reg_str` built for a match at `i`: the digit at `i + 1`, plus the
one at `i + 2` when it is a digit. -/
def regStrAt (line : List Char) (i : Nat) : List Char :=
  charAt line (i + 1) ::
    (if (charAt line (i + 2)).isDigit then [charAt line (i + 2)] else [])

/-- The fatal three-digit test: `isdigit(line[i + 3]) && isdigit(line[i + 2])`. -/
def threeDigitsAt (line : List Char) (i : Nat) : Bool :=
  (charAt line (i + 3)).isDigit && (charAt line (i + 2)).isDigit

/-- Parsed register index of the match at `i` (`strtoq(reg_str, ..., 10)`). -/
def regValAt (line : List Char) (i : Nat) : Nat := parseBase 10 (regStrAt line i) 0

/-- The register scan of `WriteLine` (lines 798-849): the `for` loop over
the line's indices; `fuel` counts the remaining iterations, so the scan
over a whole line is `regScanAux line line.length 0 acc 0`.  `acc` is the
byte buffer being extended, `found` the running `found_some`. -/
def regScanAux (line : List Char) : Nat → Nat → List Nat → Nat → Except AsmErr (List Nat × Nat)
  | 0, _, acc, found => .ok (acc, found)
  | fuel + 1, i, acc, found =>
    if regMatchAt line i then
      if threeDigitsAt line i then .error .invalidRegisterIndex
      else if regValAt line i > kAsmRegisterLimit then .error .invalidRegisterIndex
      else regScanAux line fuel (i + 1) (acc ++ [regValAt line i]) (found + 1)
    else regScanAux line fuel (i + 1) acc found

/-- The register-count checks following the scan (lines 851-888).  All of
them throw, so the separate `if`s of the source chain up exactly like
this `else if` cascade. -/
def regChecks (op : OpcodeDesc) (found : Nat) : Except AsmErr Unit :=
  if op.fFunct7 ≠ kAsmImmediate ∧ found = 1 then .error .notARegister
  else if found < 1 ∧ op.fName ≠ chars "ldw" ∧ op.fName ≠ chars "lda" ∧ op.fName ≠ chars "stw" then
    .error .invalidCombOpReg
  else if found = 1 ∧ op.fName = chars "add" then .error .invalidCombOpReg
  else if found = 1 ∧ op.fName = chars "dec" then .error .invalidCombOpReg
  else if found > 0 ∧ op.fName = chars "pop" then .error .invalidCombOpPop
  else .ok ()

/-- The operand-extraction loop of `WriteLine` (lines 910-937): while a
`","` remains, take the substring after it, erase every space, and flag a
non-register token (`jump_label[0] != 'r' && !isdigit(jump_label[1])`);
a second such token is the fatal "invalid combination" error.  Each
iteration drops at least the text up to the comma, so `line.length + 1`
fuel always suffices. -/
def commaLoop : Nat → List Char → Bool → Except AsmErr (List Char)
  | 0, jl, _ => .ok jl
  | fuel + 1, jl, foundSym =>
    match subIdx? (chars ",") jl with
    | none => .ok jl
    | some i =>
      let jl1 := (jl.drop (i + 1)).filter (fun c => c != ' ')
      if charAt jl1 0 ≠ 'r' ∧ !(charAt jl1 1).isDigit then
        if foundSym then .error .invalidCombOpOps
        else commaLoop fuel jl1 true
      else commaLoop fuel jl1 foundSym

/-- The leading-space strip of `WriteLine` (lines 942-952): while a space
remains and the head is not alphanumeric, erase the first space. -/
def stripLeadSpaces : Nat → List Char → List Char
  | 0, jl => jl
  | fuel + 1, jl =>
    match subIdx? (chars " ") jl with
    | none => jl
    | some i =>
      if (charAt jl 0).isAlphanum then jl
      else stripLeadSpaces fuel (eraseAt jl i 1)

/-- The relocation-entry copy loop (lines 1061-1078): a backslash sets
`ignore_back_slash` and is not pushed; while the flag is set the next
character is likewise skipped (both `continue` without pushing). -/
def copyEscaped : List Char → Bool → List Nat
  | [], _ => []
  | c :: rest, ign =>
    if c = '\\' then copyEscaped rest true
    else if ign then copyEscaped rest false
    else c.toNat :: copyEscaped rest ign

/-- `mld_reloc_str`: `<decimal length>:mld:<label>` (lines 1057-1059). -/
def mldString (cpy : List Char) : List Char :=
  Nat.toDigits 10 cpy.length ++ chars ":mld:" ++ cpy

/-- Tail of the label path (lines 1051-1081): empty label is fatal,
otherwise the relocation entry's characters are copied (escaped) into the
buffer followed by a null byte, and control reaches `asm_end_label_cpy`
(the `true` means the trailing `++kOrigin` runs). -/
def finishMld (cpy : List Char) (delta : List Nat) : Except AsmErr (List Nat × Bool) :=
  if cpy.length < 1 then .error .labelEmpty
  else .ok (delta ++ copyEscaped (mldString cpy) false ++ [0], true)

/-- `kOriginLabel` search of the label path (lines 1002-1024): first pair
whose name equals the label, in insertion order. -/
def lookupLabel : List (List Char × Nat) → List Char → Option Nat
  | [], _ => none
  | (n, a) :: rest, cpy => if cpy = n then some a else lookupLabel rest cpy

/-- The numeric retry inside the label path (lines 1026-1048), reached
when `cpy[0] == '0'` after the label search failed.  The `'x'/'o'/'b'`
switch retries `WriteNumber`; on its failure the `isdigit` retry runs;
if that also fails the bare `break` leaves the opcode loop *without*
reaching `asm_end_label_cpy`, hence the `false` (no origin increment).
Both failures require `WriteNumber` to refuse a digit-headed string,
which cannot happen (see `writeNumber`), so the `false` leg is dead. -/
def labelNumericRetry (cpy : List Char) (delta : List Nat) : Except AsmErr (List Nat × Bool) :=
  match charAt cpy 1 with
  | 'x' | 'o' | 'b' =>
    match writeNumber 0 cpy with
    | some nb => .ok (delta ++ nb, true)
    | none =>
      if (charAt cpy 0).isDigit then
        match writeNumber 0 cpy with
        | some nb => .ok (delta ++ nb, true)
        | none => .ok (delta, false)
      else finishMld cpy delta
  | _ =>
    if (charAt cpy 0).isDigit then
      match writeNumber 0 cpy with
      | some nb => .ok (delta ++ nb, true)
      | none => .ok (delta, false)
    else finishMld cpy delta

/-- The `asm_write_label` block (lines 980-1082): strip one newline, handle
an embedded `import` keyword, search the origin-label table (for
`lda`/`sta`), retry the numeric reader on a `0`-headed label, and
otherwise emit the inline `:mld:` relocation entry.  Returns the extended
byte delta and whether `asm_end_label_cpy` (`++kOrigin`) is reached. -/
def labelPart (op : OpcodeDesc) (labels : List (List Char × Nat)) (cpy0 : List Char)
    (delta : List Nat) : Except AsmErr (List Nat × Bool) :=
  let cpy :=
    match subIdx? (chars "\n") cpy0 with
    | some i => eraseAt cpy0 i 1
    | none => cpy0
  if occursL (chars "import") cpy then
    if op.fName = chars "sta" then .error .importStaOp
    else .ok (delta, true)
  else if op.fName = chars "lda" ∨ op.fName = chars "sta" then
    match lookupLabel labels cpy with
    | some addr => .ok (delta ++ numberCastBytes addr, true)
    | none =>
      if charAt cpy 0 = '0' then labelNumericRetry cpy delta
      else finishMld cpy delta
  else finishMld cpy delta

/-- The memory/immediate-operand mnemonics (`stw`/`ldw`/`lda`/`sta`,
line 895). -/
def memNames : List (List Char) := [chars "stw", chars "ldw", chars "lda", chars "sta"]

/-- The memory-operand block of `WriteLine` (lines 894-974): extract the
operand after the commas, strip leading spaces from the working copy, try
the numeric reader (fatal for a numberless `sta`), check the
`sta`+`import ` combination, then fall into the label path. -/
def memOp (op : OpcodeDesc) (labels : List (List Char × Nat)) (line : List Char)
    (delta : List Nat) : Except AsmErr (List Nat × Bool) :=
  match commaLoop (line.length + 1) line false with
  | .error e => .error e
  | .ok jl =>
    let cpy := jl
    let jl2 := if charAt jl 0 = ' ' then stripLeadSpaces jl.length jl else jl
    match writeNumber 0 jl2 with
    | none =>
      if op.fName = chars "sta" then .error .invalidCombOpOps
      else labelPart op labels cpy delta
    | some nb =>
      if op.fName = chars "sta" ∧ occursL (chars "import ") cpy then .error .invalidStaUsage
      else labelPart op labels cpy (delta ++ nb)

/-- Body of `WriteLine` for the matched opcode: emit the three encoding
bytes, run the register scan and count checks for RegToReg/Immediate,
then the memory-operand/label machinery; every exit through
`asm_end_label_cpy` bumps `kOrigin`. -/
def encodeWith (op : OpcodeDesc) (st : AsmState) (line : List Char) :
    Except AsmErr AsmState :=
  let d0 := [op.fOpcode, op.fFunct3, op.fFunct7]
  let scanRes : Except AsmErr (List Nat × Nat) :=
    if op.fFunct7 = kAsmRegToReg ∨ op.fFunct7 = kAsmImmediate then
      match regScanAux line line.length 0 d0 0 with
      | .error e => .error e
      | .ok (d, f) =>
        match regChecks op f with
        | .error e => .error e
        | .ok _ => .ok (d, f)
    else .ok (d0, 0)
  match scanRes with
  | .error e => .error e
  | .ok (d1, _) =>
    if memNames.contains op.fName then
      match memOp op st.originLabel line d1 with
      | .error e => .error e
      | .ok (d2, incr) =>
        .ok { st with bytes := st.bytes ++ d2,
                      origin := st.origin + (if incr then 1 else 0) }
    else if op.fName = chars "lda" ∨ op.fName = chars "sta" then
      -- unreachable: lda/sta are members of memNames; kept for structure
      -- (the `if (name == "lda" || name == "sta")` guarding `asm_write_label`
      -- with the never-assigned `cpy_jump_label`).
      match labelPart op st.originLabel [] d1 with
      | .error e => .error e
      | .ok (d2, incr) =>
        .ok { st with bytes := st.bytes ++ d2,
                      origin := st.origin + (if incr then 1 else 0) }
    else
      .ok { st with bytes := st.bytes ++ d1, origin := st.origin + 1 }

/-- `PlatformAssembler64x0::WriteLine`, lines 770-1092: skip `export `
lines, then take the first opcode-table entry whose mnemonic occurs in
the (character-valid) line; no match leaves the state untouched. -/
def writeLine (line : List Char) (st : AsmState) : Except AsmErr AsmState :=
  if occursL (chars "export ") line then .ok st
  else
    match kOpcodes64x0.find? (fun op => occursL op.fName line && isValidChars line) with
    | none => .ok st
    | some op => encodeWith op st line

/-- One iteration of the compilation loop (lines 198-223): `CheckLine`
(a non-empty error string is printed and the line skipped — recoverable),
then `asm_read_attributes` and `WriteLine` on the possibly rewritten
line; a thrown error aborts the file. -/
def processLine (bin : Bool) (line : List Char) (st : AsmState) : Except AsmErr AsmState :=
  let res := checkLine line
  if res.2.isEmpty then
    match asmReadAttributes bin res.1 st with
    | .error e => .error e
    | .ok (_, st1) => writeLine res.1 st1
  else .ok st

/-- The whole per-file compilation loop. -/
def processLines (bin : Bool) : List (List Char) → AsmState → Except AsmErr AsmState
  | [], st => .ok st
  | l :: ls, st =>
    match processLine bin l st with
    | .error e => .error e
    | .ok st' => processLines bin ls st'

/-- The serialized object layout (header fields the claims inspect, the
record table in file order, and the code blob).  The two-pass
seek-and-backpatch of the header is modelled by assembling the final
layout directly. -/
structure AEObject where
  count : Nat
  recordTable : List AERec
  code : List Nat
deriving DecidableEq

/-- The object-write stage (lines 225-311, non-flat mode): `fCount` is
records plus undefined symbols; an empty record list is the fatal
"no export found" path (`none`, output removed); the last open record's
size is finalized to the buffer length; every record gets the
relocation-at-runtime flag and a sequential offset; the undefined
symbols follow as records of the invalid-opcode kind with offsets
continuing one further on; the code blob is the byte buffer. -/
def writeObject (st : AsmState) : Option AEObject :=
  if st.records.isEmpty then none
  else
    let recs := setLastSize st.records st.bytes.length
    let recs := recs.enum.map (fun p =>
      { p.2 with fFlags := p.2.fFlags ||| kKindRelocationAtRuntime, fOffset := p.1 })
    let undefs := st.undefinedSymbols.enum.map (fun p =>
      { fName := padName p.2, fKind := kAEInvalidOpcode, fSize := p.2.length,
        fFlags := 0, fOffset := st.records.length + 1 + p.1 : AERec })
    some { count := st.records.length + st.undefinedSymbols.length,
           recordTable := recs ++ undefs,
           code := st.bytes }

/-- Outcome of one input file in the driver loop. -/
inductive FileOutcome where
  | written
  | deleted
deriving DecidableEq

/-- Per-file portion of `MPCC_MODULE(MPUXAssembler64000)` (lines 149-322):
compile the lines from the fresh global state; a thrown error removes the
object output (`deleted`); in object mode an empty record table likewise
removes it and fails; otherwise the output file is written. -/
def compileOne (bin : Bool) (lines : List (List Char)) : FileOutcome :=
  match processLines bin lines initState with
  | .error _ => .deleted
  | .ok st =>
    if bin then .written
    else
      match writeObject st with
      | none => .deleted
      | some _ => .written

/-- The driver's `for` loop over the input files (lines 114-331): the
first file is compiled; a failure jumps to `asm_fail_exit` (exit `-1`),
and a success hits the `return 0` at the end of the loop body — either
way no further input file is ever looked at.  The result is the exit code
and the outcomes of the files actually processed.  An empty file list
falls through to `asm_fail_exit`. -/
def driveFiles (bin : Bool) : List (List (List Char)) → Int × List FileOutcome
  | [] => (-1, [])
  | f :: _ =>
    match compileOne bin f with
    | .deleted => (-1, [.deleted])
    | .written => (0, [.written])

/-- `detail::print_error`, lines 78-90: the limit check runs *before* the
increment — `none` is `std::exit(3)`, `some` the updated
`kAcceptableErrors`. -/
def printErrorStep (limit cnt : Nat) : Option Nat :=
  if cnt > limit then none else some (cnt + 1)

/-- `n` successive recoverable errors reported through `print_error`,
starting from counter value `cnt`; `none` once the process has exited. -/
def runPrintErrors (limit : Nat) : Nat → Nat → Option Nat
  | 0, cnt => some cnt
  | n + 1, cnt =>
    match printErrorStep limit cnt with
    | none => none
    | some c => runPrintErrors limit n c

/-- `[i, i + f)` as a list, the index space of the register scan's loop. -/
def idxRange : Nat → Nat → List Nat
  | _, 0 => []
  | i, f + 1 => i :: idxRange (i + 1) f

/-- Specification-side view of the register scan: the match positions of
`r<digit>` in the window `[i, i + f)`, left to right. -/
def matchIdxsFrom (line : List Char) (i f : Nat) : List Nat :=
  (idxRange i f).filter (fun j => regMatchAt line j)

/-- A register token neither three digits wide nor beyond the register
limit. -/
def goodTok (line : List Char) (i : Nat) : Bool :=
  !threeDigitsAt line i && regValAt line i ≤ kAsmRegisterLimit

/-- All register-token match positions of a whole line. -/
def matchIdxs (line : List Char) : List Nat := matchIdxsFrom line 0 line.length

/-- Whether `WriteLine` encodes the line (reaches `asm_end_label_cpy`):
not an `export ` line, and some opcode-table mnemonic occurs in the
character-valid line. -/
def lineEncodes (line : List Char) : Bool :=
  !occursL (chars "export ") line &&
  (kOpcodes64x0.find? (fun op => occursL op.fName line && isValidChars line)).isSome

/-- Unwrap a known-successful compile step (used to name concrete witness
states). -/
def stepOk (r : Except AsmErr AsmState) : AsmState := r.toOption.getD initState

/-- Frame of the per-file state that the instruction encoder never
touches, plus the append-only behaviour of the byte buffer. -/
def framePreserved (st st' : AsmState) : Prop :=
  st'.records = st.records ∧ st'.originLabel = st.originLabel ∧
  st'.undefinedSymbols = st.undefinedSymbols ∧ st'.currentKind = st.currentKind ∧
  ∃ d, st'.bytes = st.bytes ++ d

theorem leadsWith_append_self (pat rest : List Char) :
    leadsWith pat (pat ++ rest) = true := by
  induction pat with
  | nil => rfl
  | cons p ps ih => simp [leadsWith, ih]

theorem subIdx?_append_self (pat rest : List Char) :
    subIdx? pat (pat ++ rest) = some 0 := by
  cases h : pat ++ rest with
  | nil => rw [subIdx?, ← h, leadsWith_append_self]; rfl
  | cons c cs => rw [subIdx?, ← h, leadsWith_append_self]; rfl

theorem occursL_append_self (pat rest : List Char) :
    occursL pat (pat ++ rest) = true := by
  rw [occursL, subIdx?_append_self]; rfl

theorem leadsWith_take {pat x : List Char} {k : Nat}
    (h : leadsWith pat (x.take k) = true) : leadsWith pat x = true := by
  induction pat generalizing x k with
  | nil => rfl
  | cons p ps ih =>
    cases x with
    | nil => cases k <;> simp [leadsWith] at h
    | cons c cs =>
      cases k with
      | zero => simp [leadsWith] at h
      | succ k' =>
        simp only [List.take, leadsWith, Bool.and_eq_true] at h ⊢
        exact ⟨h.1, ih h.2⟩

theorem occursL_iff_drop {pat l : List Char} :
    occursL pat l = true ↔ ∃ i, leadsWith pat (l.drop i) = true := by
  induction l with
  | nil =>
    rw [occursL, subIdx?]
    cases h : leadsWith pat [] with
    | true => exact iff_of_true (by simp [h]) ⟨0, h⟩
    | false =>
      refine iff_of_false (by simp [h]) ?_
      rintro ⟨i, hi⟩
      rw [List.drop_nil] at hi
      exact absurd hi (by simp [h])
  | cons c cs ih =>
    rw [occursL, subIdx?]
    cases h : leadsWith pat (c :: cs) with
    | true => exact iff_of_true (by simp [h]) ⟨0, h⟩
    | false =>
      rw [if_neg (by simp [h])]
      have hmap : ∀ o : Option Nat, (Option.map (fun x => x + 1) o).isSome = o.isSome := by
        intro o; cases o <;> rfl
      rw [hmap]
      show occursL pat cs = true ↔ _
      rw [ih]
      constructor
      · rintro ⟨i, hi⟩; exact ⟨i + 1, hi⟩
      · rintro ⟨i, hi⟩
        cases i with
        | zero => exact absurd hi (by simp [h])
        | succ j => exact ⟨j, hi⟩

theorem occursL_take {pat l : List Char} {i : Nat}
    (h : occursL pat (l.take i) = true) : occursL pat l = true := by
  rw [occursL_iff_drop] at h ⊢
  obtain ⟨j, hj⟩ := h
  refine ⟨j, ?_⟩
  rw [List.drop_take] at hj
  exact leadsWith_take hj

theorem writeNumber_zero_none {jl : List Char}
    (h : writeNumber 0 jl = none) : (charAt jl 0).isDigit = false := by
  rw [writeNumber] at h
  cases hd : (charAt jl 0).isDigit with
  | false => rfl
  | true =>
    rw [hd] at h
    simp only [Bool.not_true, Bool.false_eq_true, if_false] at h
    split at h <;> cases h

theorem writeNumber_zero_isSome {jl : List Char}
    (h : (charAt jl 0).isDigit = true) : (writeNumber 0 jl).isSome = true := by
  cases hw : writeNumber 0 jl with
  | some nb => rfl
  | none => rw [writeNumber_zero_none hw] at h; cases h

/-- C2: the Numeric Literal Reader dispatches on the character after the
leading digit; `0x2A` and `0b101010` do resolve to the same fixed-width
byte sequence as decimal `42`, but the `o` case hands `strtoq` base **7**,
so `0o52` resolves to 37, not 42 — the code diverges from its own
"base 8"/"octal" diagnostics exactly on the octal leg of the claim. -/
theorem c2_numeric_radix_bug :
    writeNumber 0 (chars "0x2A") = some (numberCastBytes 42) ∧
    writeNumber 0 (chars "0b101010") = some (numberCastBytes 42) ∧
    writeNumber 0 (chars "42") = some (numberCastBytes 42) ∧
    writeNumber 0 (chars "0o52") = some (numberCastBytes 37) ∧
    numberCastBytes 37 ≠ numberCastBytes 42 :=
  ⟨rfl, rfl, rfl, rfl, by decide⟩

/-- C10 counterexample: the claim says the text after position 2 is parsed
"in the radix named by that second character"; for `o` the named radix is
octal, but `5o52` parses `52` in base 7, yielding 37 where an octal parse
yields 42. -/
theorem c10_radix_position_counterexample :
    writeNumber 0 (chars "5o52") = some (numberCastBytes 37) ∧
    parseBase 8 (chars "52") 0 = 42 ∧
    numberCastBytes 37 ≠ numberCastBytes 42 :=
  ⟨rfl, rfl, by decide⟩

/-- C10 amended: `WriteNumber` selects the radix solely from the character
at `position + 1` and never requires the leading digit to be `0` — the
leading digit contributes nothing (`5x2A`, `0x2A` and `9x2A` all yield the
bytes of 42) — but the radix for `o` is 7, not the octal 8 the character
names. -/
theorem c10_radix_position_amended :
    writeNumber 0 (chars "5x2A") = some (numberCastBytes 42) ∧
    writeNumber 0 (chars "0x2A") = some (numberCastBytes 42) ∧
    writeNumber 0 (chars "9x2A") = some (numberCastBytes 42) ∧
    writeNumber 0 (chars "5b101010") = some (numberCastBytes 42) ∧
    writeNumber 0 (chars "5o52") = some (numberCastBytes 37) :=
  ⟨rfl, rfl, rfl, rfl, rfl⟩

/-- C5 counterexample: with the default limit 10, eleven recoverable
errors leave the process alive with the counter at 11 — which already
exceeds the limit — so termination is not "immediately exactly when the
running counter exceeds L"; only the twelfth call exits. -/
theorem c5_error_limit_counterexample :
    runPrintErrors 10 11 0 = some 11 ∧ 11 > 10 ∧ runPrintErrors 10 12 0 = none :=
  ⟨rfl, by decide, rfl⟩

theorem runPrintErrors_formula (L : Nat) :
    ∀ n c, c ≤ L + 1 →
      runPrintErrors L n c = if n + c ≤ L + 1 then some (c + n) else none := by
  intro n
  induction n with
  | zero => intro c hc; simp [runPrintErrors, hc]
  | succ n ih =>
    intro c hc
    rw [runPrintErrors, printErrorStep]
    by_cases hgt : c > L
    · have hc1 : c = L + 1 := by omega
      rw [if_pos hgt]
      rw [if_neg (by omega)]
    · rw [if_neg hgt]
      show runPrintErrors L n (c + 1) = _
      rw [ih (c + 1) (by omega)]
      by_cases hle : n + 1 + c ≤ L + 1
      · rw [if_pos (by omega), if_pos hle]
        congr 1
        omega
      · rw [if_neg (by omega), if_neg hle]

/-- C5 amended: a Line Validator failure is logged and counted, never
fatal by itself — `print_error` exits only through the limit check, and
that check runs *before* the counter is incremented.  Hence with limit L
the process survives the first L + 1 recoverable errors (the counter then
stands at L + 1 > L) and exits on the (L + 2)-th call — with the default
limit 10, on the twelfth error, not at the moment the counter first
exceeds the limit. -/
theorem c5_error_limit_amended :
    (∀ L c, printErrorStep L c = if c > L then none else some (c + 1)) ∧
    (∀ L n, runPrintErrors L n 0 = if n ≤ L + 1 then some n else none) :=
  ⟨fun _ _ => rfl,
   fun L n => by
     rw [runPrintErrors_formula L n 0 (by omega)]
     simp⟩

/-- C9: whenever the line contains a `#` (or, failing that, a `;`),
`CheckLine` erases the line in place from that character onward and
returns the empty error string unconditionally — the character-set,
comma-operand and mnemonic checks are never reached, so an otherwise
invalid instruction followed by a comment is never a validation error. -/
theorem c9_comment_strip (line : List Char) :
    (∀ i, subIdx? (chars "#") line = some i → checkLine line = (line.take i, [])) ∧
    (subIdx? (chars "#") line = none →
      ∀ j, subIdx? (chars ";") line = some j → checkLine line = (line.take j, [])) := by
  constructor
  · intro i h
    have hocc : occursL (chars "#") line = true := by rw [occursL, h]; rfl
    rw [checkLine, if_pos (by simp [hocc]), h]
  · intro h j hj
    have hocc : occursL (chars ";") line = true := by rw [occursL, hj]; rfl
    rw [checkLine, if_pos (by simp [hocc]), h, hj]

/-- C9 witness: a line that would otherwise fail validation (`%` and `$`
are outside the allow-list and `bad` is no mnemonic) is accepted, stripped
to the text before the comment, once a `#` appears. -/
theorem c9_comment_strip_witness :
    subIdx? (chars "#") (chars "%%% bad $ # comment") = some 10 ∧
    checkLine (chars "%%% bad $ # comment") =
      ((chars "%%% bad $ # comment").take 10, []) :=
  ⟨rfl, (c9_comment_strip (chars "%%% bad $ # comment")).1 10 rfl⟩

theorem matchIdxsFrom_succ (line : List Char) (i f : Nat) :
    matchIdxsFrom line i (f + 1) =
      if regMatchAt line i then i :: matchIdxsFrom line (i + 1) f
      else matchIdxsFrom line (i + 1) f := by
  rw [matchIdxsFrom, idxRange, List.filter_cons]
  split
  · rw [matchIdxsFrom]
  · rw [matchIdxsFrom]

theorem regScanAux_spec (line : List Char) :
    ∀ f i acc found,
      regScanAux line f i acc found =
        if (matchIdxsFrom line i f).all (goodTok line) then
          .ok (acc ++ (matchIdxsFrom line i f).map (regValAt line),
               found + (matchIdxsFrom line i f).length)
        else .error .invalidRegisterIndex := by
  intro f
  induction f with
  | zero => intro i acc found; simp [regScanAux, matchIdxsFrom, idxRange]
  | succ f ih =>
    intro i acc found
    rw [regScanAux, matchIdxsFrom_succ]
    by_cases hm : regMatchAt line i = true
    · simp only [if_pos hm]
      by_cases h3 : threeDigitsAt line i = true
      · have hg : goodTok line i = false := by simp [goodTok, h3]
        simp only [if_pos h3, List.all_cons, hg, Bool.false_and, Bool.false_eq_true, if_false]
      · simp only [if_neg h3]
        by_cases hval : regValAt line i > kAsmRegisterLimit
        · have hg : goodTok line i = false := by
            rw [Bool.not_eq_true] at h3
            simp only [goodTok, h3, Bool.not_false, Bool.true_and]
            exact decide_eq_false (by omega)
          simp only [if_pos hval, List.all_cons, hg, Bool.false_and, Bool.false_eq_true,
            if_false]
        · have hg : goodTok line i = true := by
            rw [Bool.not_eq_true] at h3
            simp only [goodTok, h3, Bool.not_false, Bool.true_and]
            exact decide_eq_true (by omega)
          rw [if_neg hval, ih (i + 1) (acc ++ [regValAt line i]) (found + 1)]
          simp only [List.all_cons, hg, Bool.true_and, List.map_cons, List.length_cons]
          by_cases hall : (matchIdxsFrom line (i + 1) f).all (goodTok line) = true
          · simp only [if_pos hall]
            have h1 : (acc ++ [regValAt line i]) ++
                List.map (regValAt line) (matchIdxsFrom line (i + 1) f) =
                acc ++ regValAt line i :: List.map (regValAt line) (matchIdxsFrom line (i + 1) f) := by
              simp
            have h2 : found + 1 + (matchIdxsFrom line (i + 1) f).length =
                found + ((matchIdxsFrom line (i + 1) f).length + 1) := by omega
            rw [h1, h2]
          · simp only [if_neg hall]
    · simp only [if_neg hm]
      exact ih (i + 1) acc found

/-- C7: on a RegToReg/Immediate line the register scan emits one byte per
`r<digit>` match, in left-to-right order of the match positions, and
fails with the invalid-register-index error exactly when some match has a
third digit or parses above the register limit.  At the boundary,
`add r20, r1` encodes to the three opcode bytes followed by 20 and 1 in
order, while `add r123, r0` (three digits) and `add r21, r0` (index 21)
abort fatally. -/
theorem c7_register_tokens :
    (∀ line : List Char,
      regScanAux line line.length 0 [] 0 =
        if (matchIdxs line).all (goodTok line) then
          .ok ((matchIdxs line).map (regValAt line), (matchIdxs line).length)
        else .error .invalidRegisterIndex) ∧
    (writeLine (chars "add r20, r1") initState).toOption.map AsmState.bytes =
      some [16, 0, kAsmRegToReg, 20, 1] ∧
    (writeLine (chars "add r20, r20") initState).toOption.map AsmState.bytes =
      some [16, 0, kAsmRegToReg, 20, 20] ∧
    writeLine (chars "add r123, r0") initState = .error .invalidRegisterIndex ∧
    writeLine (chars "add r21, r0") initState = .error .invalidRegisterIndex := by
  refine ⟨fun line => ?_, rfl, rfl, rfl, rfl⟩
  have h := regScanAux_spec line line.length 0 [] 0
  simpa [matchIdxs] using h

/-- C3 counterexample: `lda foo` has no comma, so the operand-extraction
loop never fires and the "symbol" relocated is the whole line: the code
section ends in `7:mld:lda foo` plus a null byte, not in the claimed
`3:mld:foo` plus null. -/
theorem c3_mld_reloc_counterexample :
    (writeLine (chars "lda foo") initState).toOption.map AsmState.bytes =
      some ([24, 0, kAsmImmediate] ++ (chars "7:mld:lda foo").map Char.toNat ++ [0]) ∧
    List.isSuffixOf ((chars "3:mld:foo").map Char.toNat ++ [0])
      ([24, 0, kAsmImmediate] ++ (chars "7:mld:lda foo").map Char.toNat ++ [0]) = false :=
  ⟨rfl, rfl⟩

/-- C3 amended: the relocation entry is `<decimal length>:mld:<operand>`
followed by one null byte, where the operand is the text after the last
comma with all spaces removed — or the whole line when no comma occurs.
In the copy loop a backslash is consumed without being emitted and the
character following it is *also* consumed without being emitted; ordinary
characters are copied one at a time.  `lda r0, foo` therefore ends in
`3:mld:foo` plus null, while the comma-less `lda foo` ends in
`7:mld:lda foo` plus null. -/
theorem c3_mld_reloc_amended :
    (∀ s : List Char, s.all (fun c => c != '\\') = true →
        copyEscaped s false = s.map Char.toNat) ∧
    (∀ (c : Char) (rest : List Char), c ≠ '\\' →
        copyEscaped ('\\' :: c :: rest) false = copyEscaped rest false) ∧
    (writeLine (chars "lda foo") initState).toOption.map AsmState.bytes =
      some ([24, 0, kAsmImmediate] ++ (chars "7:mld:lda foo").map Char.toNat ++ [0]) ∧
    (writeLine (chars "lda r0, foo") initState).toOption.map AsmState.bytes =
      some ([24, 0, kAsmImmediate, 0] ++ (chars "3:mld:foo").map Char.toNat ++ [0]) := by
  refine ⟨?_, ?_, rfl, rfl⟩
  · intro s hs
    induction s with
    | nil => rfl
    | cons c cs ih =>
      rw [List.all_cons, Bool.and_eq_true] at hs
      have hc : ¬(c = '\\') := by
        intro h
        rw [h] at hs
        exact absurd hs.1 (by decide)
      rw [copyEscaped, if_neg hc, if_neg (by simp), List.map_cons, ih hs.2]
  · intro c rest hc
    rw [copyEscaped, if_pos rfl, copyEscaped, if_neg hc, if_pos rfl]

/-- C3 witness: the two general parts of the amended claim at concrete
inputs — a backslash-free entry is copied verbatim, and a backslash
swallows both itself and the following character. -/
theorem c3_mld_reloc_witness :
    (chars "3:mld:foo").all (fun c => c != '\\') = true ∧
    copyEscaped (chars "3:mld:foo") false = (chars "3:mld:foo").map Char.toNat ∧
    copyEscaped ('\\' :: 'b' :: chars "c") false = copyEscaped (chars "c") false :=
  ⟨rfl, c3_mld_reloc_amended.1 (chars "3:mld:foo") rfl,
   c3_mld_reloc_amended.2.1 'b' (chars "c") (by decide)⟩

/-- C4 counterexample: two input files, the first aborting fatally
(`add r123, r0` throws the invalid-register-index error) and the second
compiling cleanly on its own — yet the driver deletes the first file's
output, exits with -1 and never processes the second file: only one
outcome exists where the claim promises the second file an unaffected,
independent compile. -/
theorem c4_multifile_counterexample :
    processLines false [chars "add r123, r0"] initState = .error .invalidRegisterIndex ∧
    compileOne false [chars "export .text foo"] = .written ∧
    driveFiles false [[chars "add r123, r0"], [chars "export .text foo"]] =
      (-1, [.deleted]) :=
  ⟨rfl, rfl, rfl⟩

/-- C4 amended: a fatal error while compiling a file deletes that file's
partial object output, stops processing its remaining lines, and
terminates the whole invocation with exit code -1; the remaining input
files are never compiled.  Indeed the driver's per-file loop body ends in
`return`, so at most the first input file is processed per invocation,
on success as well. -/
theorem c4_multifile_amended :
    (∀ (bin : Bool) (f : List (List Char)) (rest : List (List (List Char))),
        driveFiles bin (f :: rest) = driveFiles bin [f]) ∧
    (∀ (bin : Bool) (f : List (List Char)) (rest : List (List (List Char))),
        compileOne bin f = .deleted → driveFiles bin (f :: rest) = (-1, [.deleted])) := by
  constructor
  · intro bin f rest
    rw [driveFiles, driveFiles]
  · intro bin f rest h
    rw [driveFiles, h]

/-- C4 witness: the amended claim applied to the concrete two-file
invocation of the counterexample. -/
theorem c4_multifile_witness :
    compileOne false [chars "add r123, r0"] = .deleted ∧
    driveFiles false [[chars "add r123, r0"], [chars "export .text foo"]] =
      (-1, [.deleted]) :=
  ⟨rfl, c4_multifile_amended.2 false [chars "add r123, r0"]
    [[chars "export .text foo"]] rfl⟩

theorem finishMld_snd {cpy : List Char} {d d' : List Nat} {b : Bool}
    (h : finishMld cpy d = .ok (d', b)) : b = true := by
  rw [finishMld] at h
  split at h <;> simp_all

theorem labelNumericRetry_snd {cpy : List Char} {d d' : List Nat} {b : Bool}
    (h0 : (charAt cpy 0).isDigit = true)
    (h : labelNumericRetry cpy d = .ok (d', b)) : b = true := by
  rw [labelNumericRetry] at h
  split at h
  · split at h
    · simp_all
    · next hw => exact absurd (writeNumber_zero_isSome h0) (by simp [hw])
  · split at h
    · simp_all
    · next hw => exact absurd (writeNumber_zero_isSome h0) (by simp [hw])
  · split at h
    · simp_all
    · next hw => exact absurd (writeNumber_zero_isSome h0) (by simp [hw])
  · rw [if_pos h0] at h
    split at h
    · simp_all
    · next hw => exact absurd (writeNumber_zero_isSome h0) (by simp [hw])

theorem labelPart_snd {op : OpcodeDesc} {labels : List (List Char × Nat)}
    {cpy0 : List Char} {d d' : List Nat} {b : Bool}
    (h : labelPart op labels cpy0 d = .ok (d', b)) : b = true := by
  rw [labelPart] at h
  split at h
  · split at h <;> simp_all
  · split at h
    · split at h
      · simp_all
      · split at h
        · next h0 =>
          exact labelNumericRetry_snd (by rw [h0]; rfl) h
        · exact finishMld_snd h
    · exact finishMld_snd h

theorem memOp_snd {op : OpcodeDesc} {labels : List (List Char × Nat)}
    {line : List Char} {d d' : List Nat} {b : Bool}
    (h : memOp op labels line d = .ok (d', b)) : b = true := by
  rw [memOp] at h
  split at h
  · cases h
  · dsimp only at h
    split at h
    · split at h
      · cases h
      · exact labelPart_snd h
    · split at h
      · cases h
      · exact labelPart_snd h

theorem encodeWith_ok {op : OpcodeDesc} {st st' : AsmState} {line : List Char}
    (h : encodeWith op st line = .ok st') :
    st'.origin = st.origin + 1 ∧ framePreserved st st' := by
  rw [encodeWith] at h
  split at h
  · cases h
  · next d1 p heq =>
    split at h
    · split at h
      · cases h
      · next d2 b hmem =>
        have hb : b = true := memOp_snd hmem
        subst hb
        cases h
        exact ⟨rfl, rfl, rfl, rfl, rfl, d2, rfl⟩
    · split at h
      · split at h
        · cases h
        · next d2 b hlbl =>
          have hb : b = true := labelPart_snd hlbl
          subst hb
          cases h
          exact ⟨rfl, rfl, rfl, rfl, rfl, d2, rfl⟩
      · cases h
        exact ⟨rfl, rfl, rfl, rfl, rfl, d1, rfl⟩

theorem framePreserved_refl (st : AsmState) : framePreserved st st :=
  ⟨rfl, rfl, rfl, rfl, [], (List.append_nil _).symm⟩

theorem framePreserved_trans {a b c : AsmState}
    (h1 : framePreserved a b) (h2 : framePreserved b c) : framePreserved a c := by
  obtain ⟨r1, o1, u1, k1, d1, hd1⟩ := h1
  obtain ⟨r2, o2, u2, k2, d2, hd2⟩ := h2
  exact ⟨r2.trans r1, o2.trans o1, u2.trans u1, k2.trans k1, d1 ++ d2,
    by rw [hd2, hd1, List.append_assoc]⟩

theorem writeLine_ok {line : List Char} {st st' : AsmState}
    (h : writeLine line st = .ok st') :
    framePreserved st st' ∧
    st'.origin = st.origin + (if lineEncodes line then 1 else 0) := by
  rw [writeLine] at h
  split at h
  · next hexp =>
    cases h
    refine ⟨framePreserved_refl st, ?_⟩
    have he : lineEncodes line = false := by simp [lineEncodes, hexp]
    rw [he]
    simp
  · next hexp =>
    split at h
    · next hfind =>
      cases h
      refine ⟨framePreserved_refl st, ?_⟩
      have he : lineEncodes line = false := by simp [lineEncodes, hexp, hfind]
      rw [he]
      simp
    · next op hfind =>
      obtain ⟨ho, hf⟩ := encodeWith_ok h
      refine ⟨hf, ?_⟩
      have he : lineEncodes line = true := by simp [lineEncodes, hexp, hfind]
      rw [he, ho]
      simp

theorem mnemonicCheck_fst (l : List Char) : (mnemonicCheck l).1 = l := by
  rw [mnemonicCheck]
  split
  · rfl
  · split <;> rfl

theorem checkLine_fst (l : List Char) :
    (checkLine l).1 = l ∨ ∃ i, (checkLine l).1 = l.take i := by
  rw [checkLine]
  split
  · split
    · exact Or.inr ⟨_, rfl⟩
    · split
      · exact Or.inr ⟨_, rfl⟩
      · exact Or.inl rfl
  · split
    · exact Or.inl rfl
    · split
      · split
        · exact Or.inl rfl
        · split
          · exact Or.inl rfl
          · exact Or.inl (mnemonicCheck_fst l)
      · exact Or.inl (mnemonicCheck_fst l)

theorem occursL_checkLine {pat l : List Char} (h : occursL pat l = false) :
    occursL pat (checkLine l).1 = false := by
  rcases checkLine_fst l with he | ⟨i, he⟩
  · rw [he]; exact h
  · rw [he]
    cases hc : occursL pat (l.take i) with
    | false => rfl
    | true => rw [occursL_take hc] at h; cases h

theorem asmRead_nondirective {bin : Bool} {l : List Char} (st : AsmState)
    (himp : occursL (chars "import ") l = false)
    (hexp : occursL (chars "export ") l = false) :
    asmReadAttributes bin l st = .ok (false, st) := by
  rw [asmReadAttributes, if_neg (by simp [himp]), if_neg (by simp [hexp])]

theorem processLine_nondir {bin : Bool} {l : List Char} {st st' : AsmState}
    (himp : occursL (chars "import ") l = false)
    (hexp : occursL (chars "export ") l = false)
    (h : processLine bin l st = .ok st') : framePreserved st st' := by
  rw [processLine] at h
  split at h
  · rw [asmRead_nondirective st (occursL_checkLine himp) (occursL_checkLine hexp)] at h
    dsimp only at h
    exact (writeLine_ok h).1
  · cases h
    exact framePreserved_refl st

theorem processLines_nondir {bin : Bool} {L : List (List Char)} {st st' : AsmState}
    (hl : ∀ l ∈ L, occursL (chars "import ") l = false ∧
          occursL (chars "export ") l = false)
    (h : processLines bin L st = .ok st') : framePreserved st st' := by
  induction L generalizing st with
  | nil => rw [processLines] at h; cases h; exact framePreserved_refl st'
  | cons l ls ih =>
    rw [processLines] at h
    split at h
    · cases h
    · next st1 hstep =>
      have h1 := processLine_nondir (hl l (by simp)).1 (hl l (by simp)).2 hstep
      exact framePreserved_trans h1 (ih (fun x hx => hl x (by simp [hx])) h)

theorem asmRead_origin {bin : Bool} {l : List Char} {st : AsmState} {b : Bool}
    {st' : AsmState} (h : asmReadAttributes bin l st = .ok (b, st')) :
    st'.origin = st.origin +
      (if occursL (chars "import ") l then 0
       else if occursL (chars "export ") l then 1 else 0) := by
  rw [asmReadAttributes] at h
  split at h
  · next himp =>
    split at h
    · cases h
    · cases h
      simp [himp]
  · next himp =>
    split at h
    · next hexp =>
      split at h
      · cases h
      · cases h
        rw [Bool.not_eq_true] at himp
        simp [himp, hexp]
    · next hexp =>
      cases h
      rw [Bool.not_eq_true] at himp hexp
      simp [himp, hexp]

/-- C6 counterexample: between `export .text a` and `export .text b`
stands only the instruction `add r1, r2` — no `lda`/`sta` — yet the two
exports receive ordinals base and base + 2, not consecutive ones: the
`++kOrigin` at `asm_end_label_cpy` runs for *every* encoded line. -/
theorem c6_origin_counter_counterexample :
    (processLines false
        [chars "export .text a", chars "add r1, r2", chars "export .text b"]
        initState).toOption.map AsmState.originLabel =
      some [(chars "a", kPefBaseOrigin), (chars "b", kPefBaseOrigin + 2)] ∧
    kPefBaseOrigin + 2 ≠ kPefBaseOrigin + 1 :=
  ⟨rfl, by decide⟩

/-- C6 amended: the origin counter starts at the base address and is
incremented exactly once per `export` directive and once per *encoded
instruction line* — any line that is not an `export ` line and in which
some opcode-table mnemonic occurs while the line passes the character
check — not only `lda`/`sta` lines.  An `import` directive leaves it
unchanged.  Consequently each OriginLabel stores base plus the number of
prior increments, and exports separated by any encoded instruction do
not receive consecutive ordinals. -/
theorem c6_origin_counter_amended :
    (∀ (line : List Char) (st st' : AsmState),
        writeLine line st = .ok st' →
        st'.origin = st.origin + (if lineEncodes line then 1 else 0)) ∧
    (∀ (bin : Bool) (line : List Char) (st : AsmState) (b : Bool) (st' : AsmState),
        asmReadAttributes bin line st = .ok (b, st') →
        st'.origin = st.origin +
          (if occursL (chars "import ") line then 0
           else if occursL (chars "export ") line then 1 else 0)) :=
  ⟨fun _ _ _ h => (writeLine_ok h).2, fun _ _ _ _ _ h => asmRead_origin h⟩

/-- C6 witness: the amended claim at the concrete encoded line
`add r1, r2` (origin advances by one) and the concrete directive
`export .text a` (origin advances by one). -/
theorem c6_origin_counter_witness :
    (stepOk (writeLine (chars "add r1, r2") initState)).origin =
      initState.origin + (if lineEncodes (chars "add r1, r2") then 1 else 0) ∧
    ((asmReadAttributes false (chars "export .text a") initState).toOption.getD
        (false, initState)).2.origin =
      initState.origin +
        (if occursL (chars "import ") (chars "export .text a") then 0
         else if occursL (chars "export ") (chars "export .text a") then 1 else 0) :=
  ⟨c6_origin_counter_amended.1 (chars "add r1, r2") initState _ rfl,
   c6_origin_counter_amended.2 false (chars "export .text a") initState _ _ rfl⟩

theorem asmRead_undef {bin : Bool} {l : List Char} {st : AsmState} {b : Bool}
    {st' : AsmState} (h : asmReadAttributes bin l st = .ok (b, st')) :
    st'.undefinedSymbols = st.undefinedSymbols := by
  rw [asmReadAttributes] at h
  split at h
  · split at h
    · cases h
    · cases h; rfl
  · split at h
    · split at h
      · cases h
      · cases h; rfl
    · cases h; rfl

/-- C1 counterexample: processing `import foo` in object mode records
*no* UndefinedSymbol — `kUndefinedSymbols` is never appended anywhere in
the translation unit — and the one Record it appends carries the ordinary
(Code) section kind, not the invalid-opcode Undefined sentinel; the
serialized object holds exactly that one record, with no additional
Undefined-kind record after the real ones. -/
theorem c1_import_undefined_counterexample :
    ((asmReadAttributes false (chars "import foo") initState).toOption.getD
        (false, initState)).2.undefinedSymbols = [] ∧
    ((asmReadAttributes false (chars "import foo") initState).toOption.getD
        (false, initState)).2.records.map AERec.fKind = [kPefCode] ∧
    kPefCode ≠ kAEInvalidOpcode ∧
    (writeObject ((asmReadAttributes false (chars "import foo") initState).toOption.getD
        (false, initState)).2).map (fun o => (o.recordTable.map AERec.fKind, o.count)) =
      some ([kPefCode], 1) :=
  ⟨rfl, rfl, by decide, rfl⟩

/-- C1 amended: `import <name>` in flat-binary mode always fails fatally
for the file.  In object mode the directive appends exactly one Record to
the *ordinary* record list — serialized in directive order among the real
Records, not after them — whose name decodes as `<len>:ld:<name>`
(`3:ld:foo` for `import foo`) and whose kind is the section kind inferred
from the name (defaulting to the current kind, never the Undefined
sentinel).  No UndefinedSymbol is ever recorded: neither the directive
processor nor the encoder ever extends `kUndefinedSymbols`, so no
trailing Undefined-kind record is produced for an import. -/
theorem c1_import_record_amended :
    (∀ (name : List Char) (st : AsmState),
        asmReadAttributes true (chars "import " ++ name) st = .error .invalidImportBin) ∧
    (∀ (bin : Bool) (line : List Char) (st : AsmState) (b : Bool) (st' : AsmState),
        asmReadAttributes bin line st = .ok (b, st') →
        st'.undefinedSymbols = st.undefinedSymbols) ∧
    (∀ (line : List Char) (st st' : AsmState),
        writeLine line st = .ok st' →
        st'.undefinedSymbols = st.undefinedSymbols) ∧
    ((asmReadAttributes false (chars "import foo") initState).toOption.getD
        (false, initState)).2.records.map AERec.fName = [padName (chars "3:ld:foo")] ∧
    ((asmReadAttributes false (chars "import foo") initState).toOption.getD
        (false, initState)).2.records.map AERec.fKind = [kPefCode] ∧
    ((asmReadAttributes false (chars "import foo") initState).toOption.getD
        (false, initState)).2.undefinedSymbols = [] := by
  refine ⟨?_, ?_, ?_, rfl, rfl, rfl⟩
  · intro name st
    rw [asmReadAttributes, if_pos (occursL_append_self (chars "import ") name),
      if_pos rfl]
  · intro bin line st b st' h
    exact asmRead_undef h
  · intro line st st' h
    exact (writeLine_ok h).1.2.2.1

/-- C1 witness: the undefined-symbol-preservation parts of the amended
claim applied to the concrete directive `import foo` and the concrete
encoded line `lda foo`. -/
theorem c1_import_record_witness :
    ((asmReadAttributes false (chars "import foo") initState).toOption.getD
        (false, initState)).2.undefinedSymbols = initState.undefinedSymbols ∧
    (stepOk (writeLine (chars "lda foo") initState)).undefinedSymbols =
      initState.undefinedSymbols :=
  ⟨c1_import_record_amended.2.1 false (chars "import foo") initState _ _ rfl,
   c1_import_record_amended.2.2.1 (chars "lda foo") initState _ rfl⟩

theorem exportBar_step (st : AsmState) :
    processLine false (chars "export .data bar") st =
      .ok { st with
        originLabel := st.originLabel ++ [(chars "bar", st.origin)],
        origin := st.origin + 1,
        records := setLastSize st.records st.bytes.length ++
          [{ fName := padName (chars ".data$bar"), fKind := kPefData, fSize := 0,
             fFlags := 0, fOffset := 0 }],
        currentKind := kPefData,
        counter := st.counter + 1 } := rfl

/-- C8: for a source `export .text foo`, then any instruction lines, then
`export .data bar`, the `foo` record's size is finalized — when the
second directive is read — to exactly the number of bytes the
intermediate lines emitted into the ByteBuffer. -/
theorem c8_record_size :
    ∀ (st1 : AsmState) (L : List (List Char)) (st2 st3 : AsmState),
      processLine false (chars "export .text foo") initState = .ok st1 →
      (∀ l ∈ L, occursL (chars "import ") l = false ∧
                occursL (chars "export ") l = false) →
      processLines false L st1 = .ok st2 →
      processLine false (chars "export .data bar") st2 = .ok st3 →
      st3.records.head?.map AERec.fSize =
        some (st2.bytes.length - st1.bytes.length) := by
  intro st1 L st2 st3 h1 hL h2 h3
  have hframe := processLines_nondir hL h2
  have hst1 : st1 = stepOk (processLine false (chars "export .text foo") initState) := by
    rw [h1]
    rfl
  rw [exportBar_step st2] at h3
  cases h3
  dsimp only
  obtain ⟨r, hr⟩ : ∃ r,
      (stepOk (processLine false (chars "export .text foo") initState)).records = [r] :=
    ⟨_, rfl⟩
  have hb1 : (stepOk (processLine false
      (chars "export .text foo") initState)).bytes.length = 0 := rfl
  rw [hframe.1, hst1, hr, hb1]
  simp [setLastSize]

/-- C8 witness: with `add r1, r2` between the two exports, the `foo`
record's size is finalized to the five bytes (three encoding bytes plus
two register bytes) that the instruction emitted. -/
theorem c8_record_size_witness :
    processLine false (chars "export .text foo") initState =
      .ok (stepOk (processLine false (chars "export .text foo") initState)) ∧
    processLines false [chars "add r1, r2"]
        (stepOk (processLine false (chars "export .text foo") initState)) =
      .ok (stepOk (processLines false [chars "add r1, r2"]
        (stepOk (processLine false (chars "export .text foo") initState)))) ∧
    (stepOk (processLine false (chars "export .data bar")
        (stepOk (processLines false [chars "add r1, r2"]
          (stepOk (processLine false (chars "export .text foo") initState)))))).records.head?.map
        AERec.fSize = some 5 :=
  ⟨rfl, rfl,
   c8_record_size
     (stepOk (processLine false (chars "export .text foo") initState))
     [chars "add r1, r2"]
     (stepOk (processLines false [chars "add r1, r2"]
       (stepOk (processLine false (chars "export .text foo") initState))))
     (stepOk (processLine false (chars "export .data bar")
       (stepOk (processLines false [chars "add r1, r2"]
         (stepOk (processLine false (chars "export .text foo") initState))))))
     rfl (by decide) rfl rfl⟩
